import Mathlib

/-!
Shallow embedding of the py3dbl 3D bin-packing core (Space.py, Bin.py,
Constraints.py, Packer.py).  Decimal scalars are modelled by the exact
rationals ℚ; Python Decimal division by zero (an exception) is modelled
by Option.
-/

namespace py3dbl

/-- A point in 3D space (Space.py, class Vector3); the list `vect` becomes
three named fields indexed by `nth`. -/
structure Vector3 where
  x : ℚ
  y : ℚ
  z : ℚ
deriving DecidableEq, Repr

/-- Axis indexing of a Vector3 (Python `v[idx]`, AXIS = x:0, y:1, z:2). -/
def Vector3.nth (v : Vector3) : ℕ → ℚ
  | 0 => v.x
  | 1 => v.y
  | 2 => v.z
  | _ => 0

/-- Axis update of a Vector3 (Python `v[idx] = value`). -/
def Vector3.setNth (v : Vector3) : ℕ → ℚ → Vector3
  | 0, q => { v with x := q }
  | 1, q => { v with y := q }
  | 2, q => { v with z := q }
  | _, _ => v

/-- 90-degree rotation (Space.py, Vector3.rotate90): `orizontal` swaps
components 0 and 2, `vertical` swaps components 1 and 2; when both flags
are set the horizontal swap is applied first, as in the source. -/
def Vector3.rotate90 (v : Vector3) (orizontal vertical : Bool) : Vector3 :=
  let v1 := if orizontal then Vector3.mk v.z v.y v.x else v
  if vertical then Vector3.mk v1.x v1.z v1.y else v1

/-- An occupied axis-aligned box (Space.py, class Volume). -/
structure Volume where
  position : Vector3
  size : Vector3
deriving DecidableEq, Repr

/-- Volumetric occupation (Space.py, Volume.volume). -/
def Volume.volume (v : Volume) : ℚ := v.size.x * v.size.y * v.size.z

/-- 2D overlap area on the plane of axes `x`,`y` (Space.py, rect_intersect). -/
def rect_intersect (item1 item2 : Volume) (x y : ℕ) : ℚ :=
  let d1 := item1.size
  let d2 := item2.size
  let cx1 := item1.position.nth x + d1.nth x / 2
  let cy1 := item1.position.nth y + d1.nth y / 2
  let cx2 := item2.position.nth x + d2.nth x / 2
  let cy2 := item2.position.nth y + d2.nth y / 2
  let ix := |cx2 - cx1|
  let iy := |cy2 - cy1|
  let overlap_x := max 0 ((d1.nth x + d2.nth x) / 2 - ix)
  let overlap_y := max 0 ((d1.nth y + d2.nth y) / 2 - iy)
  |overlap_x * overlap_y|

/-- 3D intersection test (Space.py, intersect): positive rectangular overlap
on all three axis pairs. -/
def intersect (item1 item2 : Volume) : Bool :=
  decide (rect_intersect item1 item2 0 1 ≠ 0) &&
  decide (rect_intersect item1 item2 1 2 ≠ 0) &&
  decide (rect_intersect item1 item2 0 2 ≠ 0)

/-- Modelled from the spec: Item.py is not under src/.  Per spec §3 an Item
owns a Volume (`position` = bottom-left-front corner, canonical; `size`) and
a `weight`; `width`/`height`/`depth` read the size components and
`rotate90` rotates the size vector only. -/
structure Item where
  position : Vector3
  size : Vector3
  weight : ℚ
deriving DecidableEq, Repr

/-- Item width = size.x (spec §3, §6 axes convention). -/
def Item.width (i : Item) : ℚ := i.size.x

/-- Item height = size.y. -/
def Item.height (i : Item) : ℚ := i.size.y

/-- Item depth = size.z. -/
def Item.depth (i : Item) : ℚ := i.size.z

/-- The item's dimensions vector (Python `item.dimensions`). -/
def Item.dimensions (i : Item) : Vector3 := i.size

/-- The item's bounding volume (Python `item.volume`). -/
def Item.volume (i : Item) : Volume := { position := i.position, size := i.size }

/-- Item rotation (spec §3: an item rotates by rotating its size vector). -/
def Item.rotate90 (i : Item) (orizontal vertical : Bool) : Item :=
  { i with size := i.size.rotate90 orizontal vertical }

/-- A model of bin (Bin.py, class BinModel). -/
structure BinModel where
  name : String
  size : Vector3
  max_weight : ℚ
deriving DecidableEq, Repr

/-- A loadable bin (Bin.py, class Bin): a model reference, the accumulated
weight and the list of loaded items. -/
structure Bin where
  model : BinModel
  weight : ℚ
  items : List Item
deriving DecidableEq, Repr

/-- Bin width, read from the model. -/
def Bin.width (b : Bin) : ℚ := b.model.size.x

/-- Bin height, read from the model. -/
def Bin.height (b : Bin) : ℚ := b.model.size.y

/-- Bin depth, read from the model. -/
def Bin.depth (b : Bin) : ℚ := b.model.size.z

/-- Bin dimension vector, read from the model. -/
def Bin.dimension (b : Bin) : Vector3 := b.model.size

/-- Bin weight ceiling, read from the model. -/
def Bin.max_weight (b : Bin) : ℚ := b.model.max_weight

/-- A constraint predicate over (Bin, Item) (Constraints.py).  The built-in
constraints are pure; parameters are bound before use. -/
def ConstraintFn : Type := Bin → Item → Bool

/-- Insert an item in the bin (Bin.py, Bin.put_item): evaluate every
constraint against (self, item); if all succeed append the item and add its
weight and return True, otherwise return False leaving the bin unchanged.
Returns the updated bin together with the boolean result. -/
def Bin.put_item (b : Bin) (item : Item) (constraints : List ConstraintFn) :
    Bin × Bool :=
  if constraints.all fun c => c b item then
    ({ b with items := b.items ++ [item], weight := b.weight + item.weight }, true)
  else
    (b, false)

/-- Moment of a list of items about an axis reader `f` applied to each
item's geometric centre (Bin.py, the accumulation loop of
calculate_center_of_gravity). -/
def momentSum (items : List Item) (f : Item → ℚ) : ℚ :=
  (items.map fun it => f it * it.weight).sum

/-- X-coordinate of an item's geometric centre (position + size/2). -/
def Item.centerX (it : Item) : ℚ := it.position.x + it.width / 2

/-- Y-coordinate of an item's geometric centre. -/
def Item.centerY (it : Item) : ℚ := it.position.y + it.height / 2

/-- Z-coordinate of an item's geometric centre. -/
def Item.centerZ (it : Item) : ℚ := it.position.z + it.depth / 2

/-- Center of gravity of the current load (Bin.py,
Bin.calculate_center_of_gravity): geometric centre of the bin when the
accumulated weight is zero, otherwise the mass-weighted mean of the items'
centres. -/
def Bin.calculate_center_of_gravity (b : Bin) : Vector3 :=
  if b.weight = 0 then
    Vector3.mk (b.width / 2) (b.height / 2) (b.depth / 2)
  else
    Vector3.mk (momentSum b.items Item.centerX / b.weight)
      (momentSum b.items Item.centerY / b.weight)
      (momentSum b.items Item.centerZ / b.weight)

/-- Constraint `weight_within_limit` (Constraints.py, weight 5). -/
def weight_within_limit (b : Bin) (item : Item) : Bool :=
  decide (b.weight + item.weight ≤ b.max_weight)

/-- Constraint `fits_inside_bin` (Constraints.py, weight 10): on every axis
`bin.dimension[axis] >= item.position[axis] + item.dimensions[axis]`. -/
def fits_inside_bin (b : Bin) (item : Item) : Bool :=
  [0, 1, 2].all fun axis =>
    decide (b.dimension.nth axis ≥ item.position.nth axis + item.dimensions.nth axis)

/-- Constraint `no_overlap` (Constraints.py, weight 15). -/
def no_overlap (b : Bin) (item : Item) : Bool :=
  decide (b.items.length = 0) ||
  !(b.items.any fun ib => intersect ib.volume item.volume)

/-- Default minimum support ratio of `is_supported` (Constraints.py:
`minimum_support : float = 0.75`). -/
def default_minimum_support : ℚ := 3 / 4

/-- Contact area accumulated by `is_supported` (Constraints.py): the loop
over the bin's items adds the X-Z overlap of each existing item whose top
surface is exactly at the candidate item's bottom Y, when that overlap is
positive. -/
def contact_area (b : Bin) (item : Item) : ℚ :=
  b.items.foldl
    (fun acc ib =>
      let ib_top_y := ib.position.y + ib.height
      if ib_top_y = item.position.y then
        let overlap := rect_intersect ib.volume item.volume 0 2
        if 0 < overlap then acc + overlap else acc
      else acc)
    0

/-- Constraint `is_supported` (Constraints.py, weight 20): items on the
floor are always supported; otherwise the base area must be positive and
the contact ratio at least `minimum_support`.  A pure validator. -/
def is_supported (b : Bin) (item : Item) (minimum_support : ℚ) : Bool :=
  if item.position.y = 0 then
    true
  else
    let item_base_area := item.dimensions.nth 0 * item.dimensions.nth 2
    if item_base_area ≤ 0 then
      false
    else
      decide (contact_area b item / item_base_area ≥ minimum_support)

/-- The prospective centre of gravity on X and Z computed incrementally
inside `maintain_center_of_gravity` (Constraints.py lines 136-152): current
CoG times current weight plus the item's centre times its weight, divided
by the future weight. -/
def incremental_future_cog (b : Bin) (item : Item) : ℚ × ℚ :=
  let future_weight := b.weight + item.weight
  let current_cog := b.calculate_center_of_gravity
  let current_moment_x := current_cog.x * b.weight
  let current_moment_z := current_cog.z * b.weight
  let item_moment_x := item.centerX * item.weight
  let item_moment_z := item.centerZ * item.weight
  ((current_moment_x + item_moment_x) / future_weight,
   (current_moment_z + item_moment_z) / future_weight)

/-- Constraint `maintain_center_of_gravity` (Constraints.py, weight 25).
The division by `future_weight` is unguarded in the source; a zero future
weight raises Decimal DivisionByZero, modelled here by `none`.  Parameter
defaults in the source: tol_x_percent = 0.2, tol_z_percent = 0.2,
progressive_tightening = 0.7. -/
def maintain_center_of_gravity (b : Bin) (item : Item)
    (tol_x_percent tol_z_percent progressive_tightening : ℚ) : Option Bool :=
  let future_weight := b.weight + item.weight
  if future_weight = 0 then none else
  let load_ratio := if 0 < b.max_weight then future_weight / b.max_weight else 0
  let current_cog := b.calculate_center_of_gravity
  let fc := incremental_future_cog b item
  let bin_center_x := b.width / 2
  let bin_center_z := b.depth * (2 / 5)
  let scale := 1 - load_ratio * progressive_tightening
  let tol_x := b.width * tol_x_percent * scale
  let tol_z := b.depth * tol_z_percent * scale
  let future_dev_x := |fc.1 - bin_center_x|
  let future_dev_z := |fc.2 - bin_center_z|
  if tol_x < future_dev_x then some false
  else if tol_z < future_dev_z then some false
  else if 0 < b.weight then
    let current_dev_x := |current_cog.x - bin_center_x|
    let current_dev_z := |current_cog.z - bin_center_z|
    if tol_x / 2 < current_dev_x ∧ current_dev_x < future_dev_x then some false
    else if tol_z / 2 < current_dev_z ∧ current_dev_z < future_dev_z then some false
    else some true
  else some true

/-- Insert into a descending-sorted list, keeping it sorted. -/
def insertDesc (q : ℚ) : List ℚ → List ℚ
  | [] => [q]
  | y :: ys => if y ≤ q then q :: y :: ys else y :: insertDesc q ys

/-- Sort a list of rationals in descending order (Python
`sorted(y_set, reverse=True)`). -/
def sortDesc (l : List ℚ) : List ℚ := l.foldr insertDesc []

/-- The Y-candidate set of the greedy placer (Packer.py, try_fit): the
floor plus the top Y of every existing item whose X-Z projection overlaps
the item's current footprint with positive area; deduplicated (a Python
set) and sorted highest first. -/
def yCandidates (b : Bin) (item : Item) : List ℚ :=
  let tops := b.items.foldl
    (fun acc existing =>
      let existing_top := existing.position.y + existing.height
      let overlap := rect_intersect existing.volume item.volume 0 2
      if 0 < overlap then acc ++ [existing_top] else acc)
    [(0 : ℚ)]
  sortDesc tops.dedup

/-- Inner Y loop of try_fit (Packer.py): set the item at each candidate Y
in turn and attempt `Bin.put_item`; return the committed bin and item on
the first success, else the item in its last tried state. -/
def tryYs (b : Bin) (cs : List ConstraintFn) (x z : ℚ) (item : Item) :
    List ℚ → Option (Bin × Item) × Item
  | [] => (none, item)
  | y :: ys =>
    let item1 : Item := { item with position := Vector3.mk x y z }
    match b.put_item item1 cs with
    | (b1, true) => (some (b1, item1), item1)
    | (_, false) => tryYs b cs x z item1 ys

/-- One orientation body of try_fit (Packer.py): position the item at
(new_pos.x, 0, new_pos.z), compute the Y candidates (fixed to new_pos.y
when stacking along axis 1), and try them in order. -/
def tryOrient (b : Bin) (cs : List ConstraintFn) (new_pos : Vector3)
    (axis : ℕ) (item : Item) : Option (Bin × Item) × Item :=
  let item0 : Item := { item with position := Vector3.mk new_pos.x 0 new_pos.z }
  let ys := if axis = 1 then [new_pos.y] else yCandidates b item0
  tryYs b cs new_pos.x new_pos.z item0 ys

/-- The 2x2 rotation loop of try_fit (Packer.py): evaluate, rotate90
vertical, evaluate, rotate90 vertical, rotate90 horizontal, and again;
short-circuit on success, threading the item state throughout. -/
def tryRotations (b : Bin) (cs : List ConstraintFn) (new_pos : Vector3)
    (axis : ℕ) (item : Item) : Option (Bin × Item) × Item :=
  match tryOrient b cs new_pos axis item with
  | (some r, i1) => (some r, i1)
  | (none, i1) =>
  match tryOrient b cs new_pos axis (i1.rotate90 false true) with
  | (some r, i2) => (some r, i2)
  | (none, i2) =>
  match tryOrient b cs new_pos axis ((i2.rotate90 false true).rotate90 true false) with
  | (some r, i3) => (some r, i3)
  | (none, i3) =>
  match tryOrient b cs new_pos axis (i3.rotate90 false true) with
  | (some r, i4) => (some r, i4)
  | (none, i4) => (none, (i4.rotate90 false true).rotate90 true false)

/-- The axis loop of try_fit (Packer.py): for each axis, place next to the
pivot along that axis and run the rotation loop. -/
def tryAxes (b : Bin) (cs : List ConstraintFn) (pivot : Item) (item : Item) :
    List ℕ → Option (Bin × Item) × Item
  | [] => (none, item)
  | axis :: rest =>
    let new_pos := pivot.position.setNth axis
      (pivot.position.nth axis + pivot.dimensions.nth axis)
    match tryRotations b cs new_pos axis item with
    | (some r, i1) => (some r, i1)
    | (none, i1) => tryAxes b cs pivot i1 rest

/-- The pivot loop of try_fit (Packer.py): iterate over the already placed
items. -/
def tryPivots (b : Bin) (cs : List ConstraintFn) (item : Item) :
    List Item → Option (Bin × Item) × Item
  | [] => (none, item)
  | pivot :: rest =>
    match tryAxes b cs pivot item [0, 1, 2] with
    | (some r, i1) => (some r, i1)
    | (none, i1) => tryPivots b cs i1 rest

/-- Greedy placement attempt (Packer.py, base_packer.try_fit): snapshot the
item's position and size, run the pivot/axis/rotation/Y loops, and on
failure restore the snapshot.  Returns (success, final item, final bin). -/
def try_fit (b : Bin) (item : Item) (cs : List ConstraintFn) :
    Bool × Item × Bin :=
  let old_pos := item.position
  let old_size := item.dimensions
  match tryPivots b cs item b.items with
  | (some (b1, placed), _) => (true, placed, b1)
  | (none, iEnd) => (false, { iEnd with position := old_pos, size := old_size }, b)

/-- Set insertion for anchor pairs (a Python set add, determinised to
first-insertion order). -/
def addAnchor (p : ℚ × ℚ) (l : List (ℚ × ℚ)) : List (ℚ × ℚ) :=
  if p ∈ l then l else l ++ [p]

/-- Anchor generation of the multi-anchor placer (Packer.py,
_generate_xz_anchors): floor corners, floor centre, item-adjacent
positions, wall-mirrored reflections of everything so far, then the
in-bin footprint filter. -/
def generate_xz_anchors (b : Bin) (item : Item) : List (ℚ × ℚ) :=
  let iw := item.width
  let idp := item.depth
  let a0 := addAnchor (0, 0) []
  let rx := b.width - iw
  let bz := b.depth - idp
  let a1 := if 0 ≤ rx then addAnchor (rx, 0) a0 else a0
  let a2 := if 0 ≤ bz then addAnchor (0, bz) a1 else a1
  let a3 := if 0 ≤ rx ∧ 0 ≤ bz then addAnchor (rx, bz) a2 else a2
  let cx := (b.width - iw) / 2
  let cz := (b.depth - idp) / 2
  let a4 := if 0 ≤ cx ∧ 0 ≤ cz then addAnchor (cx, cz) a3 else a3
  let a5 := b.items.foldl
    (fun acc ib =>
      let px := ib.position.x
      let pz := ib.position.z
      let acc1 := addAnchor (px + ib.width, pz) acc
      let acc2 := addAnchor (px, pz + ib.depth) acc1
      let acc3 := addAnchor (px + ib.width, pz + ib.depth) acc2
      let acc4 := if 0 ≤ px - iw then addAnchor (px - iw, pz) acc3 else acc3
      if 0 ≤ pz - idp then addAnchor (px, pz - idp) acc4 else acc4)
    a4
  let a6 := a5.foldl
    (fun acc pr =>
      let mx := b.width - iw - pr.1
      let mz := b.depth - idp - pr.2
      let acc1 := if 0 ≤ mx then addAnchor (mx, pr.2) acc else acc
      let acc2 := if 0 ≤ mz then addAnchor (pr.1, mz) acc1 else acc1
      if 0 ≤ mx ∧ 0 ≤ mz then addAnchor (mx, mz) acc2 else acc2)
    a5
  a6.filter fun pr =>
    decide (0 ≤ pr.1) && decide (0 ≤ pr.2) &&
    decide (pr.1 + iw ≤ b.width) && decide (pr.2 + idp ≤ b.depth)

/-- Y-surface scan of the multi-anchor placer (Packer.py,
_find_y_candidates) for an item already positioned at (x, 0, z): floor
plus the top Y of overlapping items that leave vertical room, sorted
highest first. -/
def find_y_candidates (b : Bin) (item : Item) : List ℚ :=
  let tops := b.items.foldl
    (fun acc existing =>
      let existing_top := existing.position.y + existing.height
      if existing_top + item.height ≤ b.height then
        let overlap := rect_intersect existing.volume item.volume 0 2
        if 0 < overlap then acc ++ [existing_top] else acc
      else acc)
    [(0 : ℚ)]
  sortDesc tops.dedup

/-- Placement score of the multi-anchor placer (Packer.py,
_score_placement), lower is better: height penalty plus a compactness
bonus from the minimum L1 distance to an existing item (zero for an empty
bin).  The source computes it in floating point; scores are only compared
relatively, so exact rationals are used here. -/
def score_placement (b : Bin) (pos : Vector3)
    (height_weight compact_weight : ℚ) : ℚ :=
  let height_score := pos.y / b.height * height_weight
  let min_dist := b.items.foldl
    (fun m ib =>
      let d := |pos.x - ib.position.x| + |pos.y - ib.position.y| +
        |pos.z - ib.position.z|
      match m with
      | none => some d
      | some m0 => if d < m0 then some d else some m0)
    none
  match min_dist with
  | some m0 =>
    let norm := b.width + b.height + b.depth
    height_score + m0 / norm * compact_weight
  | none => height_score

/-- Best-candidate tracking of the multi-anchor placer: keep the
strictly lower score (Python `if score < best_score`). -/
def updateBest (best : Option (ℚ × Vector3 × Vector3)) (score : ℚ)
    (pos size : Vector3) : Option (ℚ × Vector3 × Vector3) :=
  match best with
  | none => some (score, pos, size)
  | some old => if score < old.1 then some (score, pos, size) else some old

/-- The Y loop of _try_fit_multi_anchor (Packer.py): set the item at each
candidate Y, evaluate all constraints without committing, and keep the
best-scoring feasible placement. -/
def maYs (b : Bin) (cs : List ConstraintFn) (hw cw : ℚ) (ax az : ℚ)
    (item : Item) (best : Option (ℚ × Vector3 × Vector3)) :
    List ℚ → Option (ℚ × Vector3 × Vector3) × Item
  | [] => (best, item)
  | y :: ys =>
    let item1 : Item := { item with position := Vector3.mk ax y az }
    let best1 :=
      if cs.all fun c => c b item1 then
        updateBest best (score_placement b item1.position hw cw)
          item1.position item1.dimensions
      else best
    maYs b cs hw cw ax az item1 best1 ys

/-- The anchor loop of _try_fit_multi_anchor (Packer.py): for each (x, z)
anchor, position the item at (x, 0, z) for the Y scan and run the Y loop. -/
def maAnchors (b : Bin) (cs : List ConstraintFn) (hw cw : ℚ) (item : Item)
    (best : Option (ℚ × Vector3 × Vector3)) :
    List (ℚ × ℚ) → Option (ℚ × Vector3 × Vector3) × Item
  | [] => (best, item)
  | anchor :: rest =>
    let item0 : Item := { item with position := Vector3.mk anchor.1 0 anchor.2 }
    let ys := find_y_candidates b item0
    match maYs b cs hw cw anchor.1 anchor.2 item0 best ys with
    | (best1, item1) => maAnchors b cs hw cw item1 best1 rest

/-- One orientation body of _try_fit_multi_anchor (Packer.py): regenerate
the anchors for the current footprint and run the anchor loop. -/
def maBody (b : Bin) (cs : List ConstraintFn) (hw cw : ℚ) (item : Item)
    (best : Option (ℚ × Vector3 × Vector3)) :
    Option (ℚ × Vector3 × Vector3) × Item :=
  maAnchors b cs hw cw item best (generate_xz_anchors b item)

/-- Multi-anchor placement attempt (Packer.py, _try_fit_multi_anchor):
evaluate all anchor and Y candidates under the four orientations (same
rotation toggle pattern as try_fit), commit only the best-scoring feasible
placement, and restore position and size when none exists. -/
def try_fit_multi_anchor (b : Bin) (item : Item) (cs : List ConstraintFn)
    (hw cw : ℚ) : Bool × Item × Bin :=
  let old_pos := item.position
  let old_size := item.dimensions
  let r1 := maBody b cs hw cw item none
  let r2 := maBody b cs hw cw (r1.2.rotate90 false true) r1.1
  let r3 := maBody b cs hw cw ((r2.2.rotate90 false true).rotate90 true false) r2.1
  let r4 := maBody b cs hw cw (r3.2.rotate90 false true) r3.1
  let iEnd := (r4.2.rotate90 false true).rotate90 true false
  match r4.1 with
  | some best =>
    let placed : Item := { iEnd with position := best.2.1, size := best.2.2 }
    (true, placed,
      { b with items := b.items ++ [placed], weight := b.weight + placed.weight })
  | none => (false, { iEnd with position := old_pos, size := old_size }, b)

/-- The per-bin item loop of base_packer (Packer.py): an empty bin attempts
the item directly with put_item at its current position, otherwise try_fit
runs; rejected items are collected in order as the unfitted pool. -/
def placeItems (cs : List ConstraintFn) : Bin → List Item → Bin × List Item
  | b, [] => (b, [])
  | b, item :: rest =>
    if b.items.isEmpty then
      match b.put_item item cs with
      | (b1, true) => placeItems cs b1 rest
      | (_, false) =>
        let r := placeItems cs b rest
        (r.1, item :: r.2)
    else
      match try_fit b item cs with
      | (true, _, b1) => placeItems cs b1 rest
      | (false, _, _) =>
        let r := placeItems cs b rest
        (r.1, item :: r.2)

/-- The per-bin item loop of multi_anchor_packer (Packer.py): every item
goes through _try_fit_multi_anchor. -/
def placeItemsMA (cs : List ConstraintFn) (hw cw : ℚ) :
    Bin → List Item → Bin × List Item
  | b, [] => (b, [])
  | b, item :: rest =>
    match try_fit_multi_anchor b item cs hw cw with
    | (true, _, b1) => placeItemsMA cs hw cw b1 rest
    | (false, _, _) =>
      let r := placeItemsMA cs hw cw b rest
      (r.1, item :: r.2)

theorem put_item_true_shape (b : Bin) (item : Item) (cs : List ConstraintFn)
    (b1 : Bin) (h : b.put_item item cs = (b1, true)) :
    b1.items = b.items ++ [item] ∧ b1.weight = b.weight + item.weight := by
  unfold Bin.put_item at h
  split at h
  · simp only [Prod.mk.injEq] at h
    obtain ⟨hb, -⟩ := h
    subst hb
    exact ⟨rfl, rfl⟩
  · simp at h

theorem put_item_false_shape (b : Bin) (item : Item) (cs : List ConstraintFn)
    (b1 : Bin) (h : b.put_item item cs = (b1, false)) : b1 = b := by
  unfold Bin.put_item at h
  split at h
  · simp at h
  · simp only [Prod.mk.injEq] at h
    exact h.1.symm

theorem tryYs_some_length (b : Bin) (cs : List ConstraintFn) (x z : ℚ) :
    ∀ (ys : List ℚ) (item : Item) (b1 : Bin) (pl iE : Item),
      tryYs b cs x z item ys = (some (b1, pl), iE) →
      b1.items.length = b.items.length + 1 := by
  intro ys
  induction ys with
  | nil =>
    intro item b1 pl iE h
    simp [tryYs] at h
  | cons y ys ih =>
    intro item b1 pl iE h
    unfold tryYs at h
    dsimp only [] at h
    split at h
    next b2 heq =>
      simp only [Prod.mk.injEq, Option.some.injEq] at h
      obtain ⟨⟨hb, -⟩, -⟩ := h
      subst hb
      have hs := put_item_true_shape _ _ _ _ heq
      simp [hs.1]
    next b2 heq =>
      exact ih _ _ _ _ h

theorem tryOrient_some_length (b : Bin) (cs : List ConstraintFn)
    (np : Vector3) (axis : ℕ) (item : Item) (b1 : Bin) (pl iE : Item)
    (h : tryOrient b cs np axis item = (some (b1, pl), iE)) :
    b1.items.length = b.items.length + 1 := by
  unfold tryOrient at h
  exact tryYs_some_length b cs np.x np.z _ _ _ _ _ h

theorem tryRotations_some_length (b : Bin) (cs : List ConstraintFn)
    (np : Vector3) (axis : ℕ) (item : Item) (b1 : Bin) (pl iE : Item)
    (h : tryRotations b cs np axis item = (some (b1, pl), iE)) :
    b1.items.length = b.items.length + 1 := by
  unfold tryRotations at h
  split at h
  · rename_i heq
    simp only [Prod.mk.injEq, Option.some.injEq] at h
    obtain ⟨hr, -⟩ := h
    subst hr
    exact tryOrient_some_length _ _ _ _ _ _ _ _ heq
  · split at h
    · rename_i heq
      simp only [Prod.mk.injEq, Option.some.injEq] at h
      obtain ⟨hr, -⟩ := h
      subst hr
      exact tryOrient_some_length _ _ _ _ _ _ _ _ heq
    · split at h
      · rename_i heq
        simp only [Prod.mk.injEq, Option.some.injEq] at h
        obtain ⟨hr, -⟩ := h
        subst hr
        exact tryOrient_some_length _ _ _ _ _ _ _ _ heq
      · split at h
        · rename_i heq
          simp only [Prod.mk.injEq, Option.some.injEq] at h
          obtain ⟨hr, -⟩ := h
          subst hr
          exact tryOrient_some_length _ _ _ _ _ _ _ _ heq
        · simp at h

theorem tryAxes_some_length (b : Bin) (cs : List ConstraintFn) (pivot : Item) :
    ∀ (axes : List ℕ) (item : Item) (b1 : Bin) (pl iE : Item),
      tryAxes b cs pivot item axes = (some (b1, pl), iE) →
      b1.items.length = b.items.length + 1 := by
  intro axes
  induction axes with
  | nil =>
    intro item b1 pl iE h
    simp [tryAxes] at h
  | cons a rest ih =>
    intro item b1 pl iE h
    unfold tryAxes at h
    dsimp only [] at h
    split at h
    next r i1 heq =>
      simp only [Prod.mk.injEq, Option.some.injEq] at h
      obtain ⟨hr, -⟩ := h
      subst hr
      exact tryRotations_some_length _ _ _ _ _ _ _ _ heq
    next i1 heq =>
      exact ih _ _ _ _ h

theorem tryPivots_some_length (b : Bin) (cs : List ConstraintFn) :
    ∀ (pivots : List Item) (item : Item) (b1 : Bin) (pl iE : Item),
      tryPivots b cs item pivots = (some (b1, pl), iE) →
      b1.items.length = b.items.length + 1 := by
  intro pivots
  induction pivots with
  | nil =>
    intro item b1 pl iE h
    simp [tryPivots] at h
  | cons p rest ih =>
    intro item b1 pl iE h
    unfold tryPivots at h
    split at h
    · rename_i heq
      simp only [Prod.mk.injEq, Option.some.injEq] at h
      obtain ⟨hr, -⟩ := h
      subst hr
      exact tryAxes_some_length _ _ _ _ _ _ _ _ heq
    · exact ih _ _ _ _ h

theorem try_fit_true_length (b : Bin) (item : Item) (cs : List ConstraintFn)
    (pl : Item) (b1 : Bin) (h : try_fit b item cs = (true, pl, b1)) :
    b1.items.length = b.items.length + 1 := by
  unfold try_fit at h
  split at h
  · rename_i heq
    simp only [Prod.mk.injEq] at h
    obtain ⟨-, -, hb⟩ := h
    subst hb
    exact tryPivots_some_length _ _ _ _ _ _ _ heq
  · simp at h

theorem try_fit_ma_true_length (b : Bin) (item : Item)
    (cs : List ConstraintFn) (hw cw : ℚ) (pl : Item) (b1 : Bin)
    (h : try_fit_multi_anchor b item cs hw cw = (true, pl, b1)) :
    b1.items.length = b.items.length + 1 := by
  unfold try_fit_multi_anchor at h
  dsimp only [] at h
  split at h
  · simp only [Prod.mk.injEq] at h
    obtain ⟨-, -, hb⟩ := h
    subst hb
    simp
  · simp at h

theorem placeItems_length (cs : List ConstraintFn) :
    ∀ (l : List Item) (b : Bin),
      (placeItems cs b l).1.items.length + (placeItems cs b l).2.length =
        b.items.length + l.length := by
  intro l
  induction l with
  | nil =>
    intro b
    simp [placeItems]
  | cons item rest ih =>
    intro b
    unfold placeItems
    split
    · split
      next b1 heq =>
        have hs := put_item_true_shape _ _ _ _ heq
        have h2 := ih b1
        rw [hs.1] at h2
        simp only [List.length_append, List.length_cons, List.length_nil] at h2 ⊢
        omega
      next b2 heq =>
        have h2 := ih b
        dsimp only []
        simp only [List.length_cons] at h2 ⊢
        omega
    · split
      next pl b1 heq =>
        have hs := try_fit_true_length _ _ _ _ _ heq
        have h2 := ih b1
        rw [hs] at h2
        simp only [List.length_cons] at h2 ⊢
        omega
      next pl b2 heq =>
        have h2 := ih b
        dsimp only []
        simp only [List.length_cons] at h2 ⊢
        omega

theorem placeItems_progress (cs : List ConstraintFn) (b : Bin)
    (l : List Item) (hb : b.items = [])
    (hne : (placeItems cs b l).1.items ≠ []) :
    (placeItems cs b l).2.length < l.length := by
  have hc := placeItems_length cs l b
  rw [hb] at hc
  have h1 : 1 ≤ (placeItems cs b l).1.items.length := by
    cases hx : (placeItems cs b l).1.items
    · exact absurd hx hne
    · simp
  simp at hc
  omega

theorem placeItemsMA_length (cs : List ConstraintFn) (hw cw : ℚ) :
    ∀ (l : List Item) (b : Bin),
      (placeItemsMA cs hw cw b l).1.items.length +
          (placeItemsMA cs hw cw b l).2.length =
        b.items.length + l.length := by
  intro l
  induction l with
  | nil =>
    intro b
    simp [placeItemsMA]
  | cons item rest ih =>
    intro b
    unfold placeItemsMA
    split
    next pl b1 heq =>
      have hs := try_fit_ma_true_length _ _ _ _ _ _ _ heq
      have h2 := ih b1
      rw [hs] at h2
      simp only [List.length_cons] at h2 ⊢
      omega
    next pl b2 heq =>
      have h2 := ih b
      dsimp only []
      simp only [List.length_cons] at h2 ⊢
      omega

theorem placeItemsMA_progress (cs : List ConstraintFn) (hw cw : ℚ) (b : Bin)
    (l : List Item) (hb : b.items = [])
    (hne : (placeItemsMA cs hw cw b l).1.items ≠ []) :
    (placeItemsMA cs hw cw b l).2.length < l.length := by
  have hc := placeItemsMA_length cs hw cw l b
  rw [hb] at hc
  have h1 : 1 ≤ (placeItemsMA cs hw cw b l).1.items.length := by
    cases hx : (placeItemsMA cs hw cw b l).1.items
    · exact absurd hx hne
    · simp
  simp at hc
  omega

/-- The driver loop of base_packer (Packer.py): while items remain,
allocate a bin from the fleet (or the default model, or stop), place each
pending item, stop when the fresh bin received zero items, otherwise
append the bin and continue with the unfitted pool.  Terminates because
every appended bin holds at least one formerly pending item. -/
def base_packer_loop (fleet : List BinModel) (items_to_pack : List Item)
    (default_bin : Option BinModel) (cs : List ConstraintFn) : List Bin :=
  match items_to_pack with
  | [] => []
  | i0 :: rest0 =>
    match fleet with
    | m :: fleetRest =>
      if h : (placeItems cs (Bin.mk m 0 []) (i0 :: rest0)).1.items = [] then []
      else
        (placeItems cs (Bin.mk m 0 []) (i0 :: rest0)).1 ::
          base_packer_loop fleetRest
            (placeItems cs (Bin.mk m 0 []) (i0 :: rest0)).2 default_bin cs
    | [] =>
      match default_bin with
      | some m =>
        if h : (placeItems cs (Bin.mk m 0 []) (i0 :: rest0)).1.items = [] then []
        else
          (placeItems cs (Bin.mk m 0 []) (i0 :: rest0)).1 ::
            base_packer_loop []
              (placeItems cs (Bin.mk m 0 []) (i0 :: rest0)).2 (some m) cs
      | none => []
termination_by items_to_pack.length
decreasing_by
  all_goals exact placeItems_progress cs (Bin.mk m 0 []) _ rfl h

/-- The driver loop of multi_anchor_packer (Packer.py): identical structure
to base_packer_loop with _try_fit_multi_anchor placing every item. -/
def multi_anchor_loop (fleet : List BinModel) (items_to_pack : List Item)
    (default_bin : Option BinModel) (cs : List ConstraintFn) (hw cw : ℚ) :
    List Bin :=
  match items_to_pack with
  | [] => []
  | i0 :: rest0 =>
    match fleet with
    | m :: fleetRest =>
      if h : (placeItemsMA cs hw cw (Bin.mk m 0 []) (i0 :: rest0)).1.items = []
      then []
      else
        (placeItemsMA cs hw cw (Bin.mk m 0 []) (i0 :: rest0)).1 ::
          multi_anchor_loop fleetRest
            (placeItemsMA cs hw cw (Bin.mk m 0 []) (i0 :: rest0)).2
            default_bin cs hw cw
    | [] =>
      match default_bin with
      | some m =>
        if h : (placeItemsMA cs hw cw (Bin.mk m 0 []) (i0 :: rest0)).1.items = []
        then []
        else
          (placeItemsMA cs hw cw (Bin.mk m 0 []) (i0 :: rest0)).1 ::
            multi_anchor_loop []
              (placeItemsMA cs hw cw (Bin.mk m 0 []) (i0 :: rest0)).2
              (some m) cs hw cw
      | none => []
termination_by items_to_pack.length
decreasing_by
  all_goals exact placeItemsMA_progress cs hw cw (Bin.mk m 0 []) _ rfl h

/-- One inner-loop iteration of the rotation enumeration used by both
placers (Packer.py): record the size the body evaluates, then rotate90
vertical. -/
def innerPass (p : List Vector3 × Vector3) : List Vector3 × Vector3 :=
  (p.1 ++ [p.2], p.2.rotate90 false true)

/-- One outer-loop iteration: two inner iterations followed by rotate90
horizontal. -/
def outerPass (p : List Vector3 × Vector3) : List Vector3 × Vector3 :=
  let q := innerPass (innerPass p)
  (q.1, q.2.rotate90 true false)

/-- The sizes at which the nested two-by-two rotation loop evaluates an
item starting from size `s`, together with the size left after the loop
completes without an early return. -/
def rotation_eval_trace (s : Vector3) : List Vector3 × Vector3 :=
  outerPass (outerPass ([], s))

/-- The containment predicate in the words of the claim and of spec §8:
the item's box at its current position lies within [0, bin.size] on every
axis, lower bounds included. -/
def fits_inside_bin_spec (b : Bin) (item : Item) : Bool :=
  [0, 1, 2].all fun axis =>
    decide (0 ≤ item.position.nth axis) &&
    decide (item.position.nth axis + item.dimensions.nth axis ≤ b.dimension.nth axis)

/-- C1: Bin.put_item returns true exactly when every constraint in the
list evaluates to true on (bin, item); on true it appends the item and
adds its weight, on false the bin is unchanged. -/
theorem C1_put_item_commit_iff (b : Bin) (item : Item)
    (cs : List ConstraintFn) :
    ((b.put_item item cs).2 = true ↔ (cs.all fun c => c b item) = true) ∧
    ((b.put_item item cs).2 = true →
      (b.put_item item cs).1.items = b.items ++ [item] ∧
      (b.put_item item cs).1.weight = b.weight + item.weight) ∧
    ((b.put_item item cs).2 = false → (b.put_item item cs).1 = b) := by
  unfold Bin.put_item
  split
  next hall => simp [hall]
  next hall => simp [hall]

/-- C2 counterexample: fits_inside_bin accepts an item whose position is
negative on the X axis, while the claimed containment predicate (which
includes the lower bounds 0 ≤ position) rejects it. -/
theorem C2_no_lower_bound_counterexample :
    fits_inside_bin
        (Bin.mk (BinModel.mk "cex" (Vector3.mk 10 10 10) 100) 0 [])
        (Item.mk (Vector3.mk (-1) 0 0) (Vector3.mk 1 1 1) 1) = true ∧
    fits_inside_bin_spec
        (Bin.mk (BinModel.mk "cex" (Vector3.mk 10 10 10) 100) 0 [])
        (Item.mk (Vector3.mk (-1) 0 0) (Vector3.mk 1 1 1) 1) = false := by
  constructor
  · norm_num [fits_inside_bin, List.all, Vector3.nth, Item.dimensions,
      Bin.dimension]
  · norm_num [fits_inside_bin_spec, List.all, Vector3.nth, Item.dimensions,
      Bin.dimension]

/-- C2 (amended): fits_inside_bin returns true iff on each of the three
axes item.position[a] + item.size[a] ≤ bin.size[a]; the source checks no
lower bound on the position. -/
theorem C2_fits_inside_bin_iff (b : Bin) (item : Item) :
    fits_inside_bin b item = true ↔
      (item.position.nth 0 + item.dimensions.nth 0 ≤ b.dimension.nth 0 ∧
       item.position.nth 1 + item.dimensions.nth 1 ≤ b.dimension.nth 1 ∧
       item.position.nth 2 + item.dimensions.nth 2 ≤ b.dimension.nth 2) := by
  simp [fits_inside_bin, ge_iff_le]

/-- C10: whenever the bin's accumulated weight is zero (also for a
non-empty bin of zero-weight items), calculate_center_of_gravity returns
the geometric centre of the bin and performs no division by the total
weight. -/
theorem C10_zero_weight_cog_center (b : Bin) (h : b.weight = 0) :
    b.calculate_center_of_gravity =
      Vector3.mk (b.width / 2) (b.height / 2) (b.depth / 2) := by
  unfold Bin.calculate_center_of_gravity
  rw [if_pos h]

/-- C10 witness: a non-empty bin holding one zero-weight item has
accumulated weight zero and its CoG is the bin centre. -/
theorem C10_zero_weight_cog_center_witness :
    (Bin.mk (BinModel.mk "w" (Vector3.mk 4 6 8) 10) 0
        [Item.mk (Vector3.mk 0 0 0) (Vector3.mk 1 1 1) 0]).calculate_center_of_gravity =
      Vector3.mk 2 3 4 :=
  (C10_zero_weight_cog_center
    (Bin.mk (BinModel.mk "w" (Vector3.mk 4 6 8) 10) 0
      [Item.mk (Vector3.mk 0 0 0) (Vector3.mk 1 1 1) 0]) rfl).trans
    (by norm_num [Bin.width, Bin.height, Bin.depth, Vector3.mk.injEq])

theorem rect_intersect_nonneg (a b : Volume) (x y : ℕ) :
    0 ≤ rect_intersect a b x y :=
  abs_nonneg _

theorem contact_fold (item : Item) :
    ∀ (l : List Item) (acc : ℚ),
      l.foldl
        (fun acc ib =>
          let ib_top_y := ib.position.y + ib.height
          if ib_top_y = item.position.y then
            let overlap := rect_intersect ib.volume item.volume 0 2
            if 0 < overlap then acc + overlap else acc
          else acc) acc =
      acc +
        ((l.filter fun ib =>
            decide (ib.position.y + ib.height = item.position.y)).map
          fun ib => rect_intersect ib.volume item.volume 0 2).sum := by
  intro l
  induction l with
  | nil =>
    intro acc
    simp
  | cons ib t ih =>
    intro acc
    simp only [List.foldl_cons, List.filter_cons]
    by_cases htop : ib.position.y + ib.height = item.position.y
    · by_cases hov : 0 < rect_intersect ib.volume item.volume 0 2
      · simp [htop, hov, ih]
        ring
      · have h0 : rect_intersect ib.volume item.volume 0 2 = 0 :=
          le_antisymm (not_lt.mp hov) (rect_intersect_nonneg _ _ _ _)
        simp [htop, hov, ih, h0]
    · simp [htop, ih]

theorem contact_area_eq_sum (b : Bin) (item : Item) :
    contact_area b item =
      ((b.items.filter fun ib =>
          decide (ib.position.y + ib.height = item.position.y)).map
        fun ib => rect_intersect ib.volume item.volume 0 2).sum := by
  unfold contact_area
  rw [contact_fold item b.items 0, zero_add]

/-- C3: is_supported returns true iff the item sits on the floor, or its
X-Z base area A is positive and the summed contact area C from items whose
top Y exactly equals the item's bottom Y satisfies C / A ≥ minimum_support;
the source default for minimum_support is 0.75.  The evaluation is a pure
function of (bin, item): it mutates nothing by construction. -/
theorem C3_is_supported_iff (b : Bin) (item : Item) (minimum_support : ℚ) :
    (is_supported b item minimum_support = true ↔
      item.position.y = 0 ∨
        (0 < item.dimensions.nth 0 * item.dimensions.nth 2 ∧
          ((b.items.filter fun ib =>
              decide (ib.position.y + ib.height = item.position.y)).map
            fun ib => rect_intersect ib.volume item.volume 0 2).sum /
              (item.dimensions.nth 0 * item.dimensions.nth 2) ≥
            minimum_support)) ∧
    default_minimum_support = 3 / 4 := by
  refine ⟨?_, rfl⟩
  unfold is_supported
  split
  next hy => simp [hy]
  next hy =>
    dsimp only []
    split
    next hA =>
      simp only [Bool.false_eq_true, false_iff]
      push_neg
      refine ⟨hy, ?_⟩
      intro h0
      exact absurd h0 (not_lt.mpr hA)
    next hA =>
      rw [← contact_area_eq_sum]
      simp only [decide_eq_true_eq, ge_iff_le]
      constructor
      · intro h
        exact Or.inr ⟨not_le.mp hA, h⟩
      · intro h
        rcases h with h | h
        · exact absurd h hy
        · exact h.2

theorem momentSum_append (l1 l2 : List Item) (f : Item → ℚ) :
    momentSum (l1 ++ l2) f = momentSum l1 f + momentSum l2 f := by
  simp [momentSum]

theorem momentSum_zero (f : Item → ℚ) :
    ∀ (l : List Item), (∀ it ∈ l, 0 ≤ it.weight) →
      (l.map Item.weight).sum = 0 → momentSum l f = 0 := by
  intro l
  induction l with
  | nil =>
    intro _ _
    simp [momentSum]
  | cons a t ih =>
    intro hw hs
    simp only [List.map_cons, List.sum_cons] at hs
    have ha : 0 ≤ a.weight := hw a (by simp)
    have ht : 0 ≤ (t.map Item.weight).sum := by
      apply List.sum_nonneg
      intro x hx
      obtain ⟨it, hit, rfl⟩ := List.mem_map.mp hx
      exact hw it (by simp [hit])
    have ha0 : a.weight = 0 := by linarith
    have ht0 : (t.map Item.weight).sum = 0 := by linarith
    have hrec := ih (fun it hit => hw it (by simp [hit])) ht0
    simp [momentSum] at hrec ⊢
    simp [ha0, hrec]

theorem cog_mul_weight (b : Bin) (f : Item → ℚ)
    (hsum : b.weight = (b.items.map Item.weight).sum)
    (hnn : ∀ it ∈ b.items, 0 ≤ it.weight) :
    (if b.weight = 0 then (0 : ℚ) else momentSum b.items f / b.weight) *
        b.weight = momentSum b.items f := by
  by_cases h0 : b.weight = 0
  · rw [if_pos h0, h0, mul_zero,
      momentSum_zero f b.items hnn (by rw [← hsum, h0])]
  · rw [if_neg h0]
    field_simp

/-- C4: the incremental future centre of gravity computed inside
maintain_center_of_gravity equals, on the X and Z axes,
calculate_center_of_gravity recomputed on the bin after the item is
appended and its weight added — under the bin invariant (accumulated
weight equals the sum of item weights, item weights non-negative) and a
positive future weight.  Over exact rationals the agreement is exact. -/
theorem C4_incremental_cog_matches_recompute (b : Bin) (item : Item)
    (hsum : b.weight = (b.items.map Item.weight).sum)
    (hnn : ∀ it ∈ b.items, 0 ≤ it.weight)
    (hpos : 0 < b.weight + item.weight) :
    (incremental_future_cog b item).1 =
      (Bin.calculate_center_of_gravity
        { b with items := b.items ++ [item],
                 weight := b.weight + item.weight }).x ∧
    (incremental_future_cog b item).2 =
      (Bin.calculate_center_of_gravity
        { b with items := b.items ++ [item],
                 weight := b.weight + item.weight }).z := by
  have hw' : b.weight + item.weight ≠ 0 := ne_of_gt hpos
  have hmx : b.calculate_center_of_gravity.x * b.weight =
      momentSum b.items Item.centerX := by
    have := cog_mul_weight b Item.centerX hsum hnn
    unfold Bin.calculate_center_of_gravity
    split
    next h0 => simpa [h0] using this
    next h0 => simpa [if_neg h0] using this
  have hmz : b.calculate_center_of_gravity.z * b.weight =
      momentSum b.items Item.centerZ := by
    have := cog_mul_weight b Item.centerZ hsum hnn
    unfold Bin.calculate_center_of_gravity
    split
    next h0 => simpa [h0] using this
    next h0 => simpa [if_neg h0] using this
  have hkx : momentSum (b.items ++ [item]) Item.centerX =
      momentSum b.items Item.centerX + Item.centerX item * item.weight := by
    rw [momentSum_append]
    simp [momentSum]
  have hkz : momentSum (b.items ++ [item]) Item.centerZ =
      momentSum b.items Item.centerZ + Item.centerZ item * item.weight := by
    rw [momentSum_append]
    simp [momentSum]
  constructor
  · unfold incremental_future_cog
    dsimp only []
    rw [hmx]
    unfold Bin.calculate_center_of_gravity
    rw [if_neg hw']
    dsimp only []
    rw [hkx]
  · unfold incremental_future_cog
    dsimp only []
    rw [hmz]
    unfold Bin.calculate_center_of_gravity
    rw [if_neg hw']
    dsimp only []
    rw [hkz]

/-- C4 witness: a one-item bin receiving a second item, with the
hypotheses discharged at the concrete input. -/
theorem C4_incremental_cog_matches_recompute_witness :
    (incremental_future_cog
        (Bin.mk (BinModel.mk "w4" (Vector3.mk 10 10 10) 100) 1
          [Item.mk (Vector3.mk 0 0 0) (Vector3.mk 2 2 2) 1])
        (Item.mk (Vector3.mk 2 0 0) (Vector3.mk 2 2 2) 1)).1 =
      (Bin.calculate_center_of_gravity
        { Bin.mk (BinModel.mk "w4" (Vector3.mk 10 10 10) 100) 1
            [Item.mk (Vector3.mk 0 0 0) (Vector3.mk 2 2 2) 1] with
          items :=
            (Bin.mk (BinModel.mk "w4" (Vector3.mk 10 10 10) 100) 1
              [Item.mk (Vector3.mk 0 0 0) (Vector3.mk 2 2 2) 1]).items ++
              [Item.mk (Vector3.mk 2 0 0) (Vector3.mk 2 2 2) 1],
          weight :=
            (Bin.mk (BinModel.mk "w4" (Vector3.mk 10 10 10) 100) 1
                [Item.mk (Vector3.mk 0 0 0) (Vector3.mk 2 2 2) 1]).weight +
              (Item.mk (Vector3.mk 2 0 0) (Vector3.mk 2 2 2) 1).weight }).x ∧
    (incremental_future_cog
        (Bin.mk (BinModel.mk "w4" (Vector3.mk 10 10 10) 100) 1
          [Item.mk (Vector3.mk 0 0 0) (Vector3.mk 2 2 2) 1])
        (Item.mk (Vector3.mk 2 0 0) (Vector3.mk 2 2 2) 1)).2 =
      (Bin.calculate_center_of_gravity
        { Bin.mk (BinModel.mk "w4" (Vector3.mk 10 10 10) 100) 1
            [Item.mk (Vector3.mk 0 0 0) (Vector3.mk 2 2 2) 1] with
          items :=
            (Bin.mk (BinModel.mk "w4" (Vector3.mk 10 10 10) 100) 1
              [Item.mk (Vector3.mk 0 0 0) (Vector3.mk 2 2 2) 1]).items ++
              [Item.mk (Vector3.mk 2 0 0) (Vector3.mk 2 2 2) 1],
          weight :=
            (Bin.mk (BinModel.mk "w4" (Vector3.mk 10 10 10) 100) 1
                [Item.mk (Vector3.mk 0 0 0) (Vector3.mk 2 2 2) 1]).weight +
              (Item.mk (Vector3.mk 2 0 0) (Vector3.mk 2 2 2) 1).weight }).z :=
  C4_incremental_cog_matches_recompute
    (Bin.mk (BinModel.mk "w4" (Vector3.mk 10 10 10) 100) 1
      [Item.mk (Vector3.mk 0 0 0) (Vector3.mk 2 2 2) 1])
    (Item.mk (Vector3.mk 2 0 0) (Vector3.mk 2 2 2) 1)
    (by simp) (by simp) (by norm_num)

/-- C5: when a placement attempt fails — try_fit in the greedy placer or
_try_fit_multi_anchor in the multi-anchor placer returns false — the
returned item's position and size vectors equal their pre-attempt values
(both placers snapshot and restore them). -/
theorem C5_failed_attempt_restores (b : Bin) (item : Item)
    (cs : List ConstraintFn) (hw cw : ℚ) (i1 i2 : Item) (b1 b2 : Bin) :
    (try_fit b item cs = (false, i1, b1) →
      i1.position = item.position ∧ i1.size = item.size) ∧
    (try_fit_multi_anchor b item cs hw cw = (false, i2, b2) →
      i2.position = item.position ∧ i2.size = item.size) := by
  constructor
  · intro h
    unfold try_fit at h
    dsimp only [] at h
    split at h
    · simp at h
    · simp only [Prod.mk.injEq] at h
      obtain ⟨-, hi, -⟩ := h
      rw [← hi]
      exact ⟨rfl, rfl⟩
  · intro h
    unfold try_fit_multi_anchor at h
    dsimp only [] at h
    split at h
    · simp at h
    · simp only [Prod.mk.injEq] at h
      obtain ⟨-, hi, -⟩ := h
      rw [← hi]
      exact ⟨rfl, rfl⟩

/-- C6: starting from size (w, h, d), the nested two-by-two rotation loop
(evaluate; rotate90 vertical after each inner iteration; rotate90
horizontal after each outer iteration) evaluates exactly the four sizes
(w,h,d), (w,d,h), (d,h,w), (d,w,h), one evaluation per orientation,
restores the size to (w,h,d) on completion, and for pairwise-distinct
dimensions the four (X-width, Z-depth) footprints are pairwise distinct. -/
theorem C6_rotation_enumeration (w h d : ℚ) :
    rotation_eval_trace (Vector3.mk w h d) =
      ([Vector3.mk w h d, Vector3.mk w d h, Vector3.mk d h w,
        Vector3.mk d w h], Vector3.mk w h d) ∧
    (w ≠ h → h ≠ d → w ≠ d →
      ((rotation_eval_trace (Vector3.mk w h d)).1.map
        fun s => (s.x, s.z)).Nodup) := by
  constructor
  · rfl
  · intro hwh hhd hwd
    show ([(w, d), (w, h), (d, w), (d, h)] : List (ℚ × ℚ)).Nodup
    simp only [List.nodup_cons, List.mem_cons, List.not_mem_nil, or_false,
      List.nodup_nil, and_true, not_or, Prod.mk.injEq]
    tauto

/-- C7 counterexample: under the stated data-model invariants (positive
sizes, non-negative weights, non-negative weight ceiling) a zero-weight
item offered to an empty bin drives maintain_center_of_gravity into the
unguarded division by future_weight = 0 (Decimal DivisionByZero in the
source), modelled as none. -/
theorem C7_zero_future_weight_counterexample :
    maintain_center_of_gravity
        (Bin.mk (BinModel.mk "c7" (Vector3.mk 10 10 10) 100) 0 [])
        (Item.mk (Vector3.mk 0 0 0) (Vector3.mk 1 1 1) 0)
        (1 / 5) (1 / 5) (7 / 10) = none ∧
    0 < (Item.mk (Vector3.mk 0 0 0) (Vector3.mk 1 1 1) 0).size.x ∧
    0 < (Item.mk (Vector3.mk 0 0 0) (Vector3.mk 1 1 1) 0).size.y ∧
    0 < (Item.mk (Vector3.mk 0 0 0) (Vector3.mk 1 1 1) 0).size.z ∧
    0 ≤ (Item.mk (Vector3.mk 0 0 0) (Vector3.mk 1 1 1) 0).weight ∧
    0 ≤ (Bin.mk (BinModel.mk "c7" (Vector3.mk 10 10 10) 100) 0 []).max_weight := by
  refine ⟨?_, by norm_num, by norm_num, by norm_num, by norm_num,
    by norm_num [Bin.max_weight]⟩
  norm_num [maintain_center_of_gravity]

/-- C7 (amended): whenever the future weight bin.weight + item.weight is
non-zero, maintain_center_of_gravity evaluates to a boolean (no division
by zero is reached); the other four built-in constraints are total
functions of (bin, item), their only division — the support ratio — being
guarded by the positive-base-area test. -/
theorem C7_maintain_cog_total_of_nonzero_future_weight (b : Bin)
    (item : Item) (tol_x_percent tol_z_percent progressive_tightening : ℚ)
    (h : b.weight + item.weight ≠ 0) :
    (maintain_center_of_gravity b item tol_x_percent tol_z_percent
        progressive_tightening).isSome = true := by
  unfold maintain_center_of_gravity
  dsimp only []
  rw [if_neg h]
  repeat first
  | rfl
  | split

/-- C7 witness: a weighted item offered to an empty bin makes the future
weight non-zero and the constraint evaluates to a boolean. -/
theorem C7_maintain_cog_total_witness :
    (maintain_center_of_gravity
        (Bin.mk (BinModel.mk "c7w" (Vector3.mk 10 10 10) 100) 0 [])
        (Item.mk (Vector3.mk 0 0 0) (Vector3.mk 1 1 1) 1)
        (1 / 5) (1 / 5) (7 / 10)).isSome = true :=
  C7_maintain_cog_total_of_nonzero_future_weight
    (Bin.mk (BinModel.mk "c7w" (Vector3.mk 10 10 10) 100) 0 [])
    (Item.mk (Vector3.mk 0 0 0) (Vector3.mk 1 1 1) 1)
    (1 / 5) (1 / 5) (7 / 10) (by show (0 : ℚ) + 1 ≠ 0; norm_num)

theorem base_loop_bins_nonempty :
    ∀ (n : ℕ) (pending : List Item), pending.length ≤ n →
      ∀ (fleet : List BinModel) (d : Option BinModel)
        (cs : List ConstraintFn),
        ∀ bn ∈ base_packer_loop fleet pending d cs, bn.items ≠ [] := by
  intro n
  induction n with
  | zero =>
    intro pending hp fleet d cs bn hbn
    have hnil : pending = [] := List.length_eq_zero.mp (Nat.le_zero.mp hp)
    subst hnil
    rw [base_packer_loop.eq_def] at hbn
    simp at hbn
  | succ n ih =>
    intro pending hp fleet d cs bn hbn
    rw [base_packer_loop.eq_def] at hbn
    cases pending with
    | nil => simp at hbn
    | cons i0 rest0 =>
      cases fleet with
      | cons m fleetRest =>
        dsimp only [] at hbn
        split at hbn
        · simp at hbn
        · rename_i hne
          rcases List.mem_cons.mp hbn with hbn1 | hbn2
          · rw [hbn1]
            exact hne
          · have hlt := placeItems_progress cs (Bin.mk m 0 [])
              (i0 :: rest0) rfl hne
            have hle : (placeItems cs (Bin.mk m 0 [])
                (i0 :: rest0)).2.length ≤ n := by
              simp only [List.length_cons] at hlt hp
              omega
            exact ih _ hle fleetRest d cs bn hbn2
      | nil =>
        cases d with
        | some m =>
          dsimp only [] at hbn
          split at hbn
          · simp at hbn
          · rename_i hne
            rcases List.mem_cons.mp hbn with hbn1 | hbn2
            · rw [hbn1]
              exact hne
            · have hlt := placeItems_progress cs (Bin.mk m 0 [])
                (i0 :: rest0) rfl hne
              have hle : (placeItems cs (Bin.mk m 0 [])
                  (i0 :: rest0)).2.length ≤ n := by
                simp only [List.length_cons] at hlt hp
                omega
              exact ih _ hle [] (some m) cs bn hbn2
        | none => simp at hbn

theorem ma_loop_bins_nonempty :
    ∀ (n : ℕ) (pending : List Item), pending.length ≤ n →
      ∀ (fleet : List BinModel) (d : Option BinModel)
        (cs : List ConstraintFn) (hw cw : ℚ),
        ∀ bn ∈ multi_anchor_loop fleet pending d cs hw cw,
          bn.items ≠ [] := by
  intro n
  induction n with
  | zero =>
    intro pending hp fleet d cs hw cw bn hbn
    have hnil : pending = [] := List.length_eq_zero.mp (Nat.le_zero.mp hp)
    subst hnil
    rw [multi_anchor_loop.eq_def] at hbn
    simp at hbn
  | succ n ih =>
    intro pending hp fleet d cs hw cw bn hbn
    rw [multi_anchor_loop.eq_def] at hbn
    cases pending with
    | nil => simp at hbn
    | cons i0 rest0 =>
      cases fleet with
      | cons m fleetRest =>
        dsimp only [] at hbn
        split at hbn
        · simp at hbn
        · rename_i hne
          rcases List.mem_cons.mp hbn with hbn1 | hbn2
          · rw [hbn1]
            exact hne
          · have hlt := placeItemsMA_progress cs hw cw (Bin.mk m 0 [])
              (i0 :: rest0) rfl hne
            have hle : (placeItemsMA cs hw cw (Bin.mk m 0 [])
                (i0 :: rest0)).2.length ≤ n := by
              simp only [List.length_cons] at hlt hp
              omega
            exact ih _ hle fleetRest d cs hw cw bn hbn2
      | nil =>
        cases d with
        | some m =>
          dsimp only [] at hbn
          split at hbn
          · simp at hbn
          · rename_i hne
            rcases List.mem_cons.mp hbn with hbn1 | hbn2
            · rw [hbn1]
              exact hne
            · have hlt := placeItemsMA_progress cs hw cw (Bin.mk m 0 [])
                (i0 :: rest0) rfl hne
              have hle : (placeItemsMA cs hw cw (Bin.mk m 0 [])
                  (i0 :: rest0)).2.length ≤ n := by
                simp only [List.length_cons] at hlt hp
                omega
              exact ih _ hle [] (some m) cs hw cw bn hbn2
        | none => simp at hbn

/-- C8: both packing drivers terminate (base_packer_loop and
multi_anchor_loop are total functions, defined by recursion on the number
of pending items): every iteration either stops — fleet exhausted with no
default model, or the fresh bin received zero items — or strictly
decreases the pending count, because a fresh (empty) bin whose item list
became non-empty absorbed at least one pending item; and a bin that
received zero items is never part of the returned configuration. -/
theorem C8_driver_terminates_no_empty_bin (fleet : List BinModel)
    (pending : List Item) (d : Option BinModel) (cs : List ConstraintFn)
    (hw cw : ℚ) (b : Bin) (l : List Item) :
    (∀ bn ∈ base_packer_loop fleet pending d cs, bn.items ≠ []) ∧
    (∀ bn ∈ multi_anchor_loop fleet pending d cs hw cw, bn.items ≠ []) ∧
    (b.items = [] → (placeItems cs b l).1.items ≠ [] →
      (placeItems cs b l).2.length < l.length) ∧
    (b.items = [] → (placeItemsMA cs hw cw b l).1.items ≠ [] →
      (placeItemsMA cs hw cw b l).2.length < l.length) :=
  ⟨fun bn hbn =>
      base_loop_bins_nonempty pending.length pending le_rfl fleet d cs bn hbn,
   fun bn hbn =>
      ma_loop_bins_nonempty pending.length pending le_rfl fleet d cs hw cw
        bn hbn,
   fun h1 h2 => placeItems_progress cs b l h1 h2,
   fun h1 h2 => placeItemsMA_progress cs hw cw b l h1 h2⟩

/-- C9 counterexample: the greedy per-bin loop commits the first item of
an empty bin at the position the item already carries — here (1,0,0) with
an empty constraint list — not at the origin, refuting "committed at
(0, 0, 0) regardless of the position the item carried". -/
theorem C9_first_item_keeps_carried_position_counterexample :
    placeItems [] (Bin.mk (BinModel.mk "c9" (Vector3.mk 10 10 10) 100) 0 [])
        [Item.mk (Vector3.mk 1 0 0) (Vector3.mk 1 1 1) 1] =
      (Bin.mk (BinModel.mk "c9" (Vector3.mk 10 10 10) 100) 1
        [Item.mk (Vector3.mk 1 0 0) (Vector3.mk 1 1 1) 1], []) ∧
    (Item.mk (Vector3.mk 1 0 0) (Vector3.mk 1 1 1) 1).position ≠
      Vector3.mk 0 0 0 := by
  constructor
  · norm_num [placeItems, Bin.put_item]
  · norm_num [Vector3.mk.injEq]

/-- C9 (amended): in the greedy strategy an empty bin attempts its next
item via put_item directly — bypassing corner-point generation — at the
position the item currently carries, and when the constraints admit it
the item is committed unchanged at that carried position. -/
theorem C9_empty_bin_first_item_direct_commit (cs : List ConstraintFn)
    (b : Bin) (i0 : Item) (rest : List Item) (hb : b.items = [])
    (hall : (cs.all fun c => c b i0) = true) :
    placeItems cs b (i0 :: rest) =
      placeItems cs
        { b with items := b.items ++ [i0], weight := b.weight + i0.weight }
        rest := by
  conv_lhs => rw [placeItems.eq_def]
  dsimp only []
  rw [if_pos (show b.items.isEmpty = true by simp [hb])]
  have hp : b.put_item i0 cs =
      ({ b with items := b.items ++ [i0],
                weight := b.weight + i0.weight }, true) := by
    unfold Bin.put_item
    rw [if_pos hall]
  rw [hp]

/-- C9 witness: the direct-commit equation at a concrete empty bin and
item carrying position (1,0,0), with the hypotheses discharged there. -/
theorem C9_empty_bin_first_item_direct_commit_witness :
    placeItems [] (Bin.mk (BinModel.mk "c9w" (Vector3.mk 10 10 10) 100) 0 [])
        [Item.mk (Vector3.mk 1 0 0) (Vector3.mk 1 1 1) 1] =
      placeItems []
        { Bin.mk (BinModel.mk "c9w" (Vector3.mk 10 10 10) 100) 0 [] with
          items :=
            (Bin.mk (BinModel.mk "c9w" (Vector3.mk 10 10 10) 100) 0
              []).items ++ [Item.mk (Vector3.mk 1 0 0) (Vector3.mk 1 1 1) 1],
          weight :=
            (Bin.mk (BinModel.mk "c9w" (Vector3.mk 10 10 10) 100) 0
                []).weight +
              (Item.mk (Vector3.mk 1 0 0) (Vector3.mk 1 1 1) 1).weight } [] :=
  C9_empty_bin_first_item_direct_commit []
    (Bin.mk (BinModel.mk "c9w" (Vector3.mk 10 10 10) 100) 0 [])
    (Item.mk (Vector3.mk 1 0 0) (Vector3.mk 1 1 1) 1) [] rfl rfl

end py3dbl
